import Mathlib

/-!
Verification development for the statistical-slot-machines repository.

Each definition below is a shallow embedding of a function of the source
(JavaScript), translated statement by statement.  Machine payouts are
modelled as real numbers, success probabilities and distribution
parameters as rationals, and the stream of values produced by the
runtime random generator (`Math.random()`) as an explicit function
`DrawS : Nat -> Rat` together with an index of how many draws have been
consumed.  JavaScript loops whose iteration count depends on random
draws (the retry loop in the Box-Muller sampler and the Knuth poisson
loop) are modelled with an explicit fuel bound `drawFuel`; on every
execution on which the source loop terminates within `drawFuel`
iterations the embedding agrees with the source.
-/

set_option maxHeartbeats 1000000

/-- Replace the first element satisfying `p` by `f` of it, as JavaScript
`Array.prototype.find` followed by in-place mutation of the found element. -/
def updateFirst (p : α → Bool) (f : α → α) : List α → List α
  | [] => []
  | x :: xs => if p x then f x :: xs else x :: updateFirst p f xs

/-- JavaScript `String.prototype.includes`: `jsIncludes s t` is true when
`t` occurs as a contiguous substring of `s`. -/
def jsIncludes (s t : String) : Bool :=
  s.data.tails.any (fun l => t.data.isPrefixOf l)

/-- The stream of values produced by successive `Math.random()` calls. -/
abbrev DrawS := ℕ → ℚ

namespace Distributions

/-- Fuel bound used to model the draw-consuming `while`/`do-while` loops of
`distributions.js`; the source loops terminate with probability one and the
embedding agrees with the source whenever they stop within this many turns. -/
def drawFuel : ℕ := 1000

/-- Models `let u = 0; while (u === 0) u = Math.random();`
returning the accepted draw and the next stream index. -/
def nextNonzero (s : DrawS) : ℕ → ℕ → ℚ × ℕ
  | 0, i => (s i, i + 1)
  | fuel + 1, i => if s i = 0 then nextNonzero s fuel (i + 1) else (s i, i + 1)

/-- `Distributions.normal`: Box-Muller transform,
`mean + stdDev * (sqrt (-2 log u) * cos (2 pi v))`. -/
noncomputable def normal (mean stdDev : ℚ) (s : DrawS) (i : ℕ) : ℝ × ℕ :=
  let u := nextNonzero s drawFuel i
  let v := nextNonzero s drawFuel u.2
  ((mean : ℝ) + (stdDev : ℝ) *
      (Real.sqrt (-2 * Real.log (u.1 : ℝ)) * Real.cos (2 * Real.pi * (v.1 : ℝ))), v.2)

/-- `Distributions.uniform`: `min + Math.random() * (max - min)`. -/
def uniform (mn mx : ℚ) (s : DrawS) (i : ℕ) : ℝ × ℕ :=
  ((mn : ℝ) + (s i : ℝ) * ((mx : ℝ) - (mn : ℝ)), i + 1)

/-- Body of the `for` loop in `Distributions.chiSquared`:
`result += z * z` with `z = this.normal(0, 1)`. -/
noncomputable def chiSquaredLoop (s : DrawS) : ℕ → ℕ → ℝ → ℝ × ℕ
  | 0, i, acc => (acc, i)
  | n + 1, i, acc =>
    let z := normal 0 1 s i
    chiSquaredLoop s n z.2 (acc + z.1 * z.1)

/-- `Distributions.chiSquared`: the JavaScript loop `for (i = 0; i <
degreesOfFreedom; i++)` runs `ceil degreesOfFreedom` times (0 when the
parameter is nonpositive). -/
noncomputable def chiSquared (degreesOfFreedom : ℚ) (s : DrawS) (i : ℕ) : ℝ × ℕ :=
  chiSquaredLoop s ⌈degreesOfFreedom⌉₊ i 0

/-- `Distributions.exponential`: inverse CDF, `-log(1 - Math.random()) / rate`. -/
noncomputable def exponential (rate : ℚ) (s : DrawS) (i : ℕ) : ℝ × ℕ :=
  (-Real.log (1 - (s i : ℝ)) / (rate : ℝ), i + 1)

/-- The `do { k++; p *= Math.random(); } while (p > L);` loop of
`Distributions.poisson`, returning `k` and the next stream index. -/
noncomputable def poissonLoop (s : DrawS) (L : ℝ) : ℕ → ℕ → ℕ → ℝ → ℕ × ℕ
  | 0, k, i, _ => (k, i)
  | fuel + 1, k, i, p =>
    let p1 := p * (s i : ℝ)
    if p1 > L then poissonLoop s L fuel (k + 1) (i + 1) p1 else (k + 1, i + 1)

/-- `Distributions.poisson`: Knuth multiplicative algorithm, returns `k - 1`. -/
noncomputable def poisson (lambda : ℚ) (s : DrawS) (i : ℕ) : ℝ × ℕ :=
  let L := Real.exp (-(lambda : ℝ))
  let r := poissonLoop s L drawFuel 0 i 1
  ((r.1 : ℝ) - 1, r.2)

/-- `Distributions.sample(type, params)` from `distributions.js`: the switch
dispatches on the family name; it has cases for normal, uniform, chi-squared,
exponential and poisson only, and its `default` branch returns `0`.  The
result is paired with the index of the next unconsumed random draw. -/
noncomputable def sample (dtype : String) (params : List ℚ) (s : DrawS) (i : ℕ) : ℝ × ℕ :=
  match dtype with
  | "normal" => normal (params.getD 0 0) (params.getD 1 0) s i
  | "uniform" => uniform (params.getD 0 0) (params.getD 1 0) s i
  | "chi-squared" => chiSquared (params.getD 0 0) s i
  | "exponential" => exponential (params.getD 0 0) s i
  | "poisson" => poisson (params.getD 0 0) s i
  | _ => ((0 : ℝ), i)

end Distributions

/-- Claim C8: the claim reads the sampler as drawing a Bernoulli reward by
thresholding a uniform draw, so that the value `1` is returned whenever the
draw is below `p`.  In the source `Distributions.sample` has no
`bernoulli` case at all: the switch falls through to `default` and returns
`0` for every parameter and every random draw, consuming no randomness, so
the sampler never returns `1` even when `p = 1` and the draw is below `p`. -/
theorem C8_bernoulli_sample_returns_zero :
    (∀ (p : ℚ) (s : DrawS) (i : ℕ),
      (Distributions.sample ("bernoulli") [p] s i).1 = 0) ∧
    (∀ (s : DrawS) (i : ℕ), s i < 1 →
      (Distributions.sample ("bernoulli") [1] s i).1 ≠ 1) := by
  constructor
  · intro p s i
    rfl
  · intro s i _ h
    have h0 : (Distributions.sample ("bernoulli") [1] s i).1 = 0 := rfl
    rw [h0] at h
    norm_num at h

/-- Witness for C8 at a concrete input: the uniform draw `0.3` is below the
parameter `p = 1`, yet the sampler does not return `1`. -/
theorem C8_bernoulli_sample_returns_zero_witness :
    ((fun _ : ℕ => (3 : ℚ)/10) 0 < 1) ∧
      (Distributions.sample ("bernoulli") [1] (fun _ => (3 : ℚ)/10) 0).1 ≠ 1 :=
  ⟨by norm_num,
   C8_bernoulli_sample_returns_zero.2 (fun _ => (3 : ℚ)/10) 0 (by norm_num)⟩

/-! ### A/B/C testing strategy (`ABTestStrategy` in `EXP3RStrategy.js`) -/

/-- Per-machine estimate record of `ABTestStrategy` (`id`, `pulls`,
`totalPayout`, `mean`). -/
structure ABMachine where
  id : ℕ
  pulls : ℕ
  totalPayout : ℝ
  mean : ℝ
deriving Inhabited

/-- Mutable state of an `ABTestStrategy` instance. `bestMachineId` is `none`
while the JavaScript field is `null`. -/
structure ABTestState where
  totalPulls : ℕ
  explorationCompleted : Bool
  bestMachineId : Option ℕ
  samplesPerMachine : ℕ
  explorationPhaseLength : ℕ
  machineEstimates : List ABMachine
  currentExplorationIndex : ℕ
deriving Inhabited

namespace ABTestStrategy

/-- `ABTestStrategy.initialize(machineConfigs, options)`; a config is reduced
to its machine id.  `options.samplesPerMachine || Math.max(10, Math.min(30,
Math.ceil(100 / machineConfigs.length)))`. -/
def initializeState (configs : List ℕ) (samplesPerMachineOpt : Option ℕ) : ABTestState :=
  let samplesPerMachine :=
    samplesPerMachineOpt.getD (max 10 (min 30 ⌈(100 : ℚ) / (configs.length : ℚ)⌉₊))
  { totalPulls := 0
    explorationCompleted := false
    bestMachineId := none
    samplesPerMachine := samplesPerMachine
    explorationPhaseLength := configs.length * samplesPerMachine
    machineEstimates := configs.map (fun id => ⟨id, 0, 0, 0⟩)
    currentExplorationIndex := 0 }

/-- `ABTestStrategy._determineBestMachine()`: linear scan starting from
`machineEstimates[0]`, keeping the strict-greater mean. -/
noncomputable def determineBestMachine (machines : List ABMachine) : ℕ :=
  (machines.foldl (fun best m => if m.mean > best.mean then m else best)
    (machines.headD default)).id

/-- `ABTestStrategy.selectMachine()`.  During exploration it reads the
round-robin slot and advances `currentExplorationIndex` (a state mutation);
at the budget boundary it runs `_determineBestMachine` and latches
`explorationCompleted`; afterwards it returns `bestMachineId`.  The
`getD 0` models the (unreachable after commit) JavaScript `null`. -/
noncomputable def selectMachine (s : ABTestState) : ℕ × ABTestState :=
  if s.totalPulls < s.explorationPhaseLength then
    let machineIndex := s.currentExplorationIndex % s.machineEstimates.length
    let selected := s.machineEstimates.getD machineIndex default
    (selected.id, { s with currentExplorationIndex := s.currentExplorationIndex + 1 })
  else
    let s1 :=
      if s.explorationCompleted = false then
        { s with bestMachineId := some (determineBestMachine s.machineEstimates),
                 explorationCompleted := true }
      else s
    (s1.bestMachineId.getD 0, s1)

/-- `ABTestStrategy.update(machineId, payout)`: `totalPulls` is incremented
first; an unknown id returns early; otherwise the machine statistics are
updated in place and, exactly when the exploration budget is hit, the best
machine is determined and `explorationCompleted` latched. -/
noncomputable def update (s : ABTestState) (machineId : ℕ) (payout : ℝ) : ABTestState :=
  let s1 := { s with totalPulls := s.totalPulls + 1 }
  if s1.machineEstimates.any (fun m => m.id == machineId) then
    let newEstimates :=
      updateFirst (fun m => m.id == machineId)
        (fun m =>
          let pulls := m.pulls + 1
          let total := m.totalPayout + payout
          { m with pulls := pulls, totalPayout := total, mean := total / (pulls : ℝ) })
        s1.machineEstimates
    let s2 := { s1 with machineEstimates := newEstimates }
    if s2.totalPulls = s2.explorationPhaseLength ∧ s2.explorationCompleted = false then
      { s2 with bestMachineId := some (determineBestMachine s2.machineEstimates),
                explorationCompleted := true }
    else s2
  else s1

end ABTestStrategy

/-- One round of the coordinator protocol against a single A/B-test strategy:
`selectMachine` then `update` of the selected machine with reward `r`. -/
noncomputable def abRound (s : ABTestState) (r : ℝ) : ABTestState :=
  let sel := ABTestStrategy.selectMachine s
  ABTestStrategy.update sel.2 sel.1 r

/-- `n` rounds of the protocol from a fresh two-machine instance with
`samplesPerMachine = 10`, the reward of round `i` being `r i`. -/
noncomputable def abRun (r : ℕ → ℝ) : ℕ → ABTestState
  | 0 => ABTestStrategy.initializeState [0, 1] (some 10)
  | n + 1 => abRound (abRun r n) (r n)

/-- Sum of the rewards of the first `n` rounds whose index has parity
`par`; these are exactly the rewards credited to machine `par` during
round-robin exploration. -/
noncomputable def sumSel (r : ℕ → ℝ) (par n : ℕ) : ℝ :=
  ∑ i ∈ Finset.range n, if i % 2 = par then r i else 0

/-- Number of exploration rounds among the first `n` credited to machine
`par` (`par < 2`). -/
def cntSel (par n : ℕ) : ℕ :=
  if par = 0 then (n + 1) / 2 else n / 2

/-- Closed form of the strategy state after `n ≤ 20` protocol rounds. -/
noncomputable def exploreState (r : ℕ → ℝ) (n : ℕ) : ABTestState :=
  { totalPulls := n
    explorationCompleted := decide (n = 20)
    bestMachineId :=
      if n = 20 then
        some (if sumSel r 1 20 / 10 > sumSel r 0 20 / 10 then 1 else 0)
      else none
    samplesPerMachine := 10
    explorationPhaseLength := 20
    machineEstimates :=
      [⟨0, cntSel 0 n, sumSel r 0 n,
          if cntSel 0 n = 0 then 0 else sumSel r 0 n / (cntSel 0 n : ℝ)⟩,
       ⟨1, cntSel 1 n, sumSel r 1 n,
          if cntSel 1 n = 0 then 0 else sumSel r 1 n / (cntSel 1 n : ℝ)⟩]
    currentExplorationIndex := n }

/-- Applying a list of further `update` calls (arbitrary machine ids and
payouts) to a strategy state. -/
noncomputable def applyUpdates (s : ABTestState) (ops : List (ℕ × ℝ)) : ABTestState :=
  ops.foldl (fun st o => ABTestStrategy.update st o.1 o.2) s

lemma sumSel_succ (r : ℕ → ℝ) (par n : ℕ) :
    sumSel r par (n + 1) = sumSel r par n + (if n % 2 = par then r n else 0) := by
  simp [sumSel, Finset.sum_range_succ]

lemma abRun_eq_exploreState (r : ℕ → ℝ) : ∀ n, n ≤ 20 → abRun r n = exploreState r n := by
  intro n
  induction n with
  | zero =>
    intro _
    simp [abRun, ABTestStrategy.initializeState, exploreState, cntSel, sumSel]
  | succ n ih =>
    intro hle
    have hn20 : n < 20 := by omega
    rw [abRun, ih (by omega)]
    rcases Nat.even_or_odd n with he | ho
    · have hpar : n % 2 = 0 := Nat.even_iff.mp he
      have hne : n + 1 ≠ 20 := by omega
      have hne20 : n ≠ 20 := by omega
      have hc0 : cntSel 0 (n + 1) = cntSel 0 n + 1 := by simp [cntSel]; omega
      have hc1 : cntSel 1 (n + 1) = cntSel 1 n := by simp [cntSel]; omega
      simp [abRound, ABTestStrategy.selectMachine, ABTestStrategy.update,
        exploreState, updateFirst, hpar, hn20, hne, hne20, hc0, hc1, sumSel_succ]
    · have hpar : n % 2 = 1 := Nat.odd_iff.mp ho
      have hc0 : cntSel 0 (n + 1) = cntSel 0 n := by simp [cntSel]; omega
      have hc1 : cntSel 1 (n + 1) = cntSel 1 n + 1 := by simp [cntSel]; omega
      by_cases h19 : n = 19
      · subst h19
        have hs0 : sumSel r 0 20 = sumSel r 0 19 := by rw [sumSel_succ]; norm_num
        have hs1 : sumSel r 1 20 = sumSel r 1 19 + r 19 := by rw [sumSel_succ]; norm_num
        simp [abRound, ABTestStrategy.selectMachine, ABTestStrategy.update,
          ABTestStrategy.determineBestMachine, exploreState, updateFirst, cntSel,
          hs0, hs1, sumSel_succ]
        split <;> rfl
      · have hne : n + 1 ≠ 20 := by omega
        have hne20 : n ≠ 20 := by omega
        simp [abRound, ABTestStrategy.selectMachine, ABTestStrategy.update,
          exploreState, updateFirst, hpar, hn20, hne, hne20, hc0, hc1, sumSel_succ]

lemma ABTestStrategy.update_committed (s : ABTestState) (machineId : ℕ) (p : ℝ)
    (h : s.explorationCompleted = true) :
    (ABTestStrategy.update s machineId p).explorationCompleted = true ∧
    (ABTestStrategy.update s machineId p).bestMachineId = s.bestMachineId ∧
    (ABTestStrategy.update s machineId p).explorationPhaseLength = s.explorationPhaseLength ∧
    s.totalPulls ≤ (ABTestStrategy.update s machineId p).totalPulls := by
  unfold ABTestStrategy.update
  by_cases hany : s.machineEstimates.any (fun m => m.id == machineId) = true
  · simp [hany, h]
  · simp [hany, h]

lemma ABTestStrategy.select_committed (s : ABTestState)
    (h1 : s.explorationCompleted = true) (h2 : s.explorationPhaseLength ≤ s.totalPulls) :
    ABTestStrategy.selectMachine s = (s.bestMachineId.getD 0, s) := by
  unfold ABTestStrategy.selectMachine
  rw [if_neg (by omega)]
  simp [h1]

lemma applyUpdates_committed (ops : List (ℕ × ℝ)) :
    ∀ s : ABTestState, s.explorationCompleted = true →
      (applyUpdates s ops).explorationCompleted = true ∧
      (applyUpdates s ops).bestMachineId = s.bestMachineId ∧
      (applyUpdates s ops).explorationPhaseLength = s.explorationPhaseLength ∧
      s.totalPulls ≤ (applyUpdates s ops).totalPulls := by
  induction ops with
  | nil => intro s h; simp [applyUpdates, h]
  | cons o rest ih =>
    intro s h
    have hu := ABTestStrategy.update_committed s o.1 o.2 h
    have hr := ih (ABTestStrategy.update s o.1 o.2) hu.1
    simp only [applyUpdates, List.foldl_cons] at hr ⊢
    exact ⟨hr.1, hr.2.1.trans hu.2.1, hr.2.2.1.trans hu.2.2.1,
      le_trans hu.2.2.2 hr.2.2.2⟩

/-- Claim C5: the explore-then-commit (A/B-test) strategy with two machines
and `samplesPerMachine = 10` explores round-robin for 20 rounds; the 21st
`selectMachine` call returns the machine with the higher empirical mean over
those 20 rounds (first machine on ties), and after any further sequence of
`update` calls `ops` — with arbitrary machine ids and rewards — every later
`selectMachine` call still returns that same machine. -/
theorem C5_explore_then_commit (r : ℕ → ℝ) (ops : List (ℕ × ℝ)) :
    ((ABTestStrategy.selectMachine (abRun r 20)).1 =
      if sumSel r 1 20 / 10 > sumSel r 0 20 / 10 then 1 else 0) ∧
    ((ABTestStrategy.selectMachine
        (applyUpdates (ABTestStrategy.selectMachine (abRun r 20)).2 ops)).1 =
      if sumSel r 1 20 / 10 > sumSel r 0 20 / 10 then 1 else 0) := by
  have h20 := abRun_eq_exploreState r 20 le_rfl
  have hC : (exploreState r 20).explorationCompleted = true := by simp [exploreState]
  have hB : (exploreState r 20).bestMachineId =
      some (if sumSel r 1 20 / 10 > sumSel r 0 20 / 10 then 1 else 0) := by
    simp [exploreState]
  have hP : (exploreState r 20).explorationPhaseLength ≤ (exploreState r 20).totalPulls := by
    simp [exploreState]
  have hsel := ABTestStrategy.select_committed _ hC hP
  constructor
  · rw [h20, hsel, hB]
    rfl
  · rw [h20, hsel]
    have hAll := applyUpdates_committed ops (exploreState r 20) hC
    have hsel2 := ABTestStrategy.select_committed (applyUpdates (exploreState r 20) ops)
      hAll.1 (by rw [hAll.2.2.1]; exact le_trans hP hAll.2.2.2)
    rw [hsel2, hAll.2.1, hB]
    rfl

/-! ### UCB1 strategy (`UCBStrategy.js`) -/

/-- Per-machine estimate record of `UCBStrategy`; the cached `ucb` field is
an extended real so that the JavaScript `Infinity` of unexplored machines
and the `-Infinity` comparison seed are represented exactly. -/
structure UCBMachine where
  id : ℕ
  pulls : ℕ
  totalPayout : ℝ
  mean : ℝ
  ucb : EReal
deriving Inhabited

/-- Mutable state of a `UCBStrategy` instance. -/
structure UCBState where
  totalPulls : ℕ
  machineEstimates : List UCBMachine
deriving Inhabited

namespace UCBStrategy

/-- `UCBStrategy.initialize(machineConfigs)`: every machine starts with
`pulls = 0`, zero payout and mean, and `ucb = Infinity`. -/
def initializeState (configs : List ℕ) : UCBState :=
  ⟨0, configs.map (fun id => ⟨id, 0, 0, 0, ⊤⟩)⟩

/-- The UCB index written into `machine.ucb`: `Infinity` when the machine is
unexplored, otherwise `mean + sqrt(2 * ln(totalPulls) / pulls)`. -/
noncomputable def ucbValue (totalPulls pulls : ℕ) (mean : ℝ) : EReal :=
  if pulls = 0 then ⊤
  else ((mean + Real.sqrt (2 * Real.log (totalPulls : ℝ) / (pulls : ℝ)) : ℝ) : EReal)

/-- `UCBStrategy.selectMachine()`: the `forEach` loop first rewrites each
machine's cached `ucb` from the current statistics and then compares it
against the running best, seeded with `bestMachineId = 0`,
`bestUCB = -Infinity`; writing all the `ucb` fields first and folding
afterwards performs the identical writes and comparisons in the same
order. -/
noncomputable def selectMachine (s : UCBState) : ℕ × UCBState :=
  let updated := s.machineEstimates.map
    (fun m => { m with ucb := ucbValue s.totalPulls m.pulls m.mean })
  let best := updated.foldl
    (fun acc m => if m.ucb > acc.2 then (m.id, m.ucb) else acc) (0, (⊥ : EReal))
  (best.1, { s with machineEstimates := updated })

/-- `UCBStrategy.update(machineId, payout)`: `totalPulls` is incremented
first; an unknown id returns early; otherwise the machine's statistics are
updated and, since the new `pulls` is positive, its `ucb` is recomputed with
the incremented `totalPulls`. -/
noncomputable def update (s : UCBState) (machineId : ℕ) (payout : ℝ) : UCBState :=
  let s1 := { s with totalPulls := s.totalPulls + 1 }
  if s1.machineEstimates.any (fun m => m.id == machineId) then
    let newEstimates :=
      updateFirst (fun m => m.id == machineId)
        (fun m =>
          let pulls := m.pulls + 1
          let total := m.totalPayout + payout
          { m with pulls := pulls, totalPayout := total, mean := total / (pulls : ℝ),
                   ucb := ucbValue s1.totalPulls pulls (total / (pulls : ℝ)) })
        s1.machineEstimates
    { s1 with machineEstimates := newEstimates }
  else s1

end UCBStrategy

/-- One coordinator round against a UCB strategy where machine `id` pays the
deterministic reward `v id`: `selectMachine` then `update` of the choice. -/
noncomputable def ucbRound (s : UCBState) (v : ℕ → ℝ) : UCBState :=
  let sel := UCBStrategy.selectMachine s
  UCBStrategy.update sel.2 sel.1 (v sel.1)

/-- Claim C4: the UCB1 index of a machine with `pulls > 0` equals its
empirical mean plus `sqrt(2 ln N / n)` where `N` is the strategy's total
observed pulls; an unexplored machine has index `Infinity`, which is
strictly above every explored machine's index; and in the concrete
two-machine scenario where machine 0 deterministically pays 10 and machine
1 pays 0, rounds 1 and 2 pull machines 0 and 1 once each, and the round-3
`selectMachine` call returns machine 0, the machine that paid 10. -/
theorem C4_ucb_index :
    (∀ (N n : ℕ) (mean : ℝ), n ≠ 0 →
      UCBStrategy.ucbValue N n mean =
        ((mean + Real.sqrt (2 * Real.log (N : ℝ) / (n : ℝ)) : ℝ) : EReal)) ∧
    (∀ (N n : ℕ) (m1 m2 : ℝ), 0 < n →
      UCBStrategy.ucbValue N n m1 < UCBStrategy.ucbValue N 0 m2) ∧
    ((UCBStrategy.selectMachine (UCBStrategy.initializeState [0, 1])).1 = 0 ∧
     (UCBStrategy.selectMachine
        (ucbRound (UCBStrategy.initializeState [0, 1])
          (fun id => if id = 0 then 10 else 0))).1 = 1 ∧
     (UCBStrategy.selectMachine
        (ucbRound (ucbRound (UCBStrategy.initializeState [0, 1])
            (fun id => if id = 0 then 10 else 0))
          (fun id => if id = 0 then 10 else 0))).1 = 0) := by
  refine ⟨?_, ?_, ?_, ?_, ?_⟩
  · intro N n mean hn
    simp [UCBStrategy.ucbValue, hn]
  · intro N n m1 m2 hn
    simp only [UCBStrategy.ucbValue, if_pos rfl, if_neg (Nat.pos_iff_ne_zero.mp hn)]
    exact EReal.coe_lt_top _
  · simp [UCBStrategy.selectMachine, UCBStrategy.initializeState, UCBStrategy.ucbValue]
  · simp [ucbRound, UCBStrategy.selectMachine, UCBStrategy.initializeState,
      UCBStrategy.update, UCBStrategy.ucbValue, updateFirst]
  · have h1 : (⊥ : EReal) <
        ((Real.sqrt 2 : ℝ) : EReal) * ((Real.sqrt (Real.log 2) : ℝ) : EReal) := by
      rw [← EReal.coe_mul]
      exact EReal.bot_lt_coe _
    have h2 : ¬ ((((10 : ℝ) : EReal) +
          ((Real.sqrt 2 : ℝ) : EReal) * ((Real.sqrt (Real.log 2) : ℝ) : EReal)) <
        ((Real.sqrt 2 : ℝ) : EReal) * ((Real.sqrt (Real.log 2) : ℝ) : EReal)) := by
      rw [← EReal.coe_mul, ← EReal.coe_add, EReal.coe_lt_coe_iff]
      simp [add_lt_iff_neg_left]
    simp [ucbRound, UCBStrategy.selectMachine, UCBStrategy.initializeState,
      UCBStrategy.update, UCBStrategy.ucbValue, updateFirst, h1, h2]

/-- Witness for C4: the index formula and the unexplored-machine dominance
instantiated at `N = 3`, `n = 2`. -/
theorem C4_ucb_index_witness :
    ((2 : ℕ) ≠ 0 ∧ UCBStrategy.ucbValue 3 2 (5 : ℝ) =
        (((5 : ℝ) + Real.sqrt (2 * Real.log ((3 : ℕ) : ℝ) / ((2 : ℕ) : ℝ)) : ℝ) : EReal)) ∧
    (0 < (2 : ℕ) ∧ UCBStrategy.ucbValue 3 2 (5 : ℝ) < UCBStrategy.ucbValue 3 0 (7 : ℝ)) :=
  ⟨⟨by norm_num, C4_ucb_index.1 3 2 5 (by norm_num)⟩,
   ⟨by norm_num, C4_ucb_index.2.1 3 2 5 7 (by norm_num)⟩⟩

/-! ### Non-Stationary UCB strategy (`NonStationaryUCBStrategy` in part_009) -/

/-- Per-machine estimate record of `NonStationaryUCBStrategy`: the UCB
fields plus the sliding window and the Page-Hinkley accumulators. -/
structure NSUCBMachine where
  id : ℕ
  pulls : ℕ
  totalPayout : ℝ
  mean : ℝ
  ucb : EReal
  recentPayouts : List ℝ
  sumDeviations : ℝ
  minSumDeviations : ℝ
  lastChangePoint : ℕ
  changeDetected : Bool
deriving Inhabited

/-- Mutable state of a `NonStationaryUCBStrategy` instance. -/
structure NSUCBState where
  totalPulls : ℕ
  windowSize : ℕ
  discountFactor : ℝ
  changeDetectionThreshold : ℝ
  machineEstimates : List NSUCBMachine
deriving Inhabited

namespace NonStationaryUCBStrategy

/-- `NonStationaryUCBStrategy.initialize(machineConfigs, options)`: defaults
`windowSize = 20`, `discountFactor = 0.9`, `changeDetectionThreshold = 50`
(via JavaScript `||`); every machine starts unexplored with `ucb =
Infinity`, an empty window and zeroed Page-Hinkley accumulators. -/
def initializeState (configs : List ℕ) (windowSizeOpt : Option ℕ)
    (discountFactorOpt thresholdOpt : Option ℝ) : NSUCBState :=
  { totalPulls := 0
    windowSize := windowSizeOpt.getD 20
    discountFactor := discountFactorOpt.getD 0.9
    changeDetectionThreshold := thresholdOpt.getD 50
    machineEstimates := configs.map (fun id => ⟨id, 0, 0, 0, ⊤, [], 0, 0, 0, false⟩) }

/-- The adaptive mean used by `selectMachine`: the post-change suffix of the
sliding window when a change was detected (falling back to the running mean
when that suffix is empty), the full window otherwise, and the running mean
when the window is empty.  `slice(Math.max(0, len - (pulls -
lastChangePoint)))` is the truncated-subtraction `drop`. -/
noncomputable def nsEffectiveMean (m : NSUCBMachine) : ℝ :=
  if m.recentPayouts.length ≠ 0 then
    if m.changeDetected then
      let afterChange :=
        m.recentPayouts.drop (m.recentPayouts.length - (m.pulls - m.lastChangePoint))
      if afterChange.length ≠ 0 then afterChange.sum / (afterChange.length : ℝ)
      else m.mean
    else m.recentPayouts.sum / (m.recentPayouts.length : ℝ)
  else m.mean

/-- The index written into `machine.ucb` by `selectMachine`: `Infinity` for
an unexplored machine, otherwise the adaptive mean plus
`sqrt(coef * ln(totalPulls) / effectivePulls)` with coefficient 3 and
`effectivePulls = max(1, pulls - lastChangePoint)` after a detected change
(2 and `pulls` otherwise). -/
noncomputable def nsucbValue (totalPulls : ℕ) (m : NSUCBMachine) : EReal :=
  if m.pulls = 0 then ⊤
  else
    let effectivePulls := if m.changeDetected then max 1 (m.pulls - m.lastChangePoint)
      else m.pulls
    let explorationCoef : ℝ := if m.changeDetected then 3 else 2
    ((nsEffectiveMean m +
        Real.sqrt (explorationCoef * Real.log (totalPulls : ℝ) / (effectivePulls : ℝ)) : ℝ) :
      EReal)

/-- `NonStationaryUCBStrategy.selectMachine()`: the `forEach` loop rewrites
each machine's cached `ucb` and compares it against the running best seeded
with `(0, -Infinity)`.  For an unexplored machine the source compares
`bestUCB < Infinity` and assigns `(machine.id, Infinity)`, which is the same
test and assignment as the generic `machine.ucb > bestUCB` branch once
`machine.ucb = Infinity` has been written, so one fold covers both paths. -/
noncomputable def selectMachine (s : NSUCBState) : ℕ × NSUCBState :=
  let updated := s.machineEstimates.map
    (fun m => { m with ucb := nsucbValue s.totalPulls m })
  let best := updated.foldl
    (fun acc m => if m.ucb > acc.2 then (m.id, m.ucb) else acc) (0, (⊥ : EReal))
  (best.1, { s with machineEstimates := updated })

/-- `NonStationaryUCBStrategy.update(machineId, payout)`: `totalPulls` is
incremented first; an unknown id returns early; otherwise the machine's
statistics, sliding window and Page-Hinkley accumulators are updated
(deviation `payout - oldMean - 0.05`, `S := max(0, S + deviation)`,
`m := min(m, S)`), and when `pulls > 5` and `S - m` exceeds the threshold a
change is recorded and the accumulators reset (the window is kept). -/
noncomputable def update (s : NSUCBState) (machineId : ℕ) (payout : ℝ) : NSUCBState :=
  let s1 := { s with totalPulls := s.totalPulls + 1 }
  if s1.machineEstimates.any (fun m => m.id == machineId) then
    let newEstimates :=
      updateFirst (fun m => m.id == machineId)
        (fun m =>
          let pulls : ℕ := m.pulls + 1
          let total := m.totalPayout + payout
          let oldMean := m.mean
          let mean := total / (pulls : ℝ)
          let recent0 := m.recentPayouts ++ [payout]
          let recent := if s.windowSize < recent0.length then recent0.tail else recent0
          let sumDev := max 0 (m.sumDeviations + (payout - oldMean - 0.05))
          let minSumDev := min m.minSumDeviations sumDev
          let PHStat := sumDev - minSumDev
          if 5 < pulls ∧ PHStat > s.changeDetectionThreshold then
            { m with pulls := pulls, totalPayout := total, mean := mean,
                     recentPayouts := recent, changeDetected := true,
                     lastChangePoint := pulls, sumDeviations := 0, minSumDeviations := 0 }
          else
            { m with pulls := pulls, totalPayout := total, mean := mean,
                     recentPayouts := recent, sumDeviations := sumDev,
                     minSumDeviations := minSumDev })
        s1.machineEstimates
    { s1 with machineEstimates := newEstimates }
  else s1

end NonStationaryUCBStrategy

/-- Counterexample to claim C7: `selectMachine` is not a pure read for every
strategy variant.  On a fresh two-machine A/B-test instance two consecutive
`selectMachine` calls with no intervening `update` return machine 0 and then
machine 1 — the call advances `currentExplorationIndex` — and the state after
the first call differs from the state before it. -/
theorem C7_counterexample :
    (ABTestStrategy.selectMachine (ABTestStrategy.initializeState [0, 1] (some 10))).1 = 0 ∧
    (ABTestStrategy.selectMachine
      (ABTestStrategy.selectMachine
        (ABTestStrategy.initializeState [0, 1] (some 10))).2).1 = 1 ∧
    (ABTestStrategy.selectMachine (ABTestStrategy.initializeState [0, 1] (some 10))).2 ≠
      ABTestStrategy.initializeState [0, 1] (some 10) := by
  refine ⟨?_, ?_, ?_⟩
  · simp [ABTestStrategy.selectMachine, ABTestStrategy.initializeState]
  · simp [ABTestStrategy.selectMachine, ABTestStrategy.initializeState]
  · intro h
    have hidx := congrArg ABTestState.currentExplorationIndex h
    simp [ABTestStrategy.selectMachine, ABTestStrategy.initializeState] at hidx


/-! ### EXP3 strategy (`EXP3Strategy.js`) -/

/-- Per-machine estimate record of `EXP3Strategy`. -/
structure EXP3Machine where
  id : ℕ
  pulls : ℕ
  totalPayout : ℝ
  mean : ℝ
  probability : ℝ
  weight : ℝ
deriving Inhabited

/-- Mutable state of an `EXP3Strategy` instance. -/
structure EXP3State where
  numMachines : ℕ
  totalPulls : ℕ
  gamma : ℝ
  eta : ℝ
  weights : List ℝ
  probabilities : List ℝ
  machineEstimates : List EXP3Machine
deriving Inhabited

namespace EXP3Strategy

/-- The probability vector recomputed by `updateProbabilities()`:
`(1 - gamma) * (w_i / totalWeight) + gamma / numMachines`, with
`totalWeight = weights.reduce((a, b) => a + b, 0)`. -/
noncomputable def computeProbabilities (gamma : ℝ) (k : ℕ) (weights : List ℝ) : List ℝ :=
  let totalWeight := weights.sum
  weights.map (fun w => (1 - gamma) * (w / totalWeight) + gamma / (k : ℝ))

/-- `EXP3Strategy.updateProbabilities()`: recomputes `this.probabilities` and
copies probability and weight into each machine estimate (`probabilities[i]`
and `weights[i]`; the vectors always have `numMachines` entries, so the
`getD 0` defaults are never taken). -/
noncomputable def updateProbabilities (s : EXP3State) : EXP3State :=
  let probs := computeProbabilities s.gamma s.numMachines s.weights
  let newEstimates := s.machineEstimates.enum.map
    (fun p => { p.2 with probability := probs.getD p.1 0, weight := s.weights.getD p.1 0 })
  { s with probabilities := probs, machineEstimates := newEstimates }

/-- `EXP3Strategy.initialize(machineConfigs, options)`: weights start at 1,
probabilities are computed once, and each machine estimate records its
initial probability and weight. -/
noncomputable def initializeState (configs : List ℕ) (gammaOpt etaOpt : Option ℝ) : EXP3State :=
  let k := configs.length
  let gamma := gammaOpt.getD 0.1
  let eta := etaOpt.getD 0.1
  let weights := List.replicate k (1 : ℝ)
  let probs := computeProbabilities gamma k weights
  { numMachines := k, totalPulls := 0, gamma := gamma, eta := eta,
    weights := weights, probabilities := probs,
    machineEstimates := configs.enum.map (fun p => ⟨p.2, 0, 0, 0, probs.getD p.1 0, 1⟩) }

/-- The cumulative-probability walk of `EXP3Strategy.selectMachine()`. -/
noncomputable def selectLoop (rand : ℝ) : ℝ → List (ℝ × ℕ) → Option ℕ
  | _, [] => none
  | cum, pr :: rest =>
    if rand < cum + pr.1 then some pr.2 else selectLoop rand (cum + pr.1) rest

/-- `EXP3Strategy.selectMachine()`: draws `rand`, walks the cumulative
probabilities and returns the matching machine id, falling back to the last
machine on floating-point shortfall.  The draw is an explicit argument, so
the function reads but never writes the strategy state. -/
noncomputable def selectMachine (s : EXP3State) (rand : ℝ) : ℕ :=
  (selectLoop rand 0 (s.probabilities.zip (s.machineEstimates.map (fun m => m.id)))).getD
    ((s.machineEstimates.getLastD default).id)

/-- `EXP3Strategy.update(machineId, payout)`: `totalPulls` is incremented
first; an unknown id returns early; otherwise the chosen machine's
statistics are updated, its weight is multiplied by
`exp(eta * ((payout + 10) / 20 / probability) / numMachines)`, and all
probabilities are recomputed. -/
noncomputable def update (s : EXP3State) (machineId : ℕ) (payout : ℝ) : EXP3State :=
  let s1 := { s with totalPulls := s.totalPulls + 1 }
  match s1.machineEstimates.findIdx? (fun m => m.id == machineId) with
  | none => s1
  | some machineIndex =>
    let machine := s1.machineEstimates.getD machineIndex default
    let updatedMachine :=
      let pulls := machine.pulls + 1
      let total := machine.totalPayout + payout
      { machine with pulls := pulls, totalPayout := total, mean := total / (pulls : ℝ) }
    let s2 := { s1 with machineEstimates := s1.machineEstimates.set machineIndex updatedMachine }
    let normalizedPayout := (payout + 10) / 20
    let estimatedReward := normalizedPayout / updatedMachine.probability
    let newWeights := s2.weights.set machineIndex
      ((s2.weights.getD machineIndex 0) *
        Real.exp (s1.eta * estimatedReward / (s1.numMachines : ℝ)))
    updateProbabilities { s2 with weights := newWeights }

end EXP3Strategy

/-- A sequence of `update` calls applied to an EXP3 state. -/
noncomputable def exp3ApplyUpdates (s : EXP3State) (ops : List (ℕ × ℝ)) : EXP3State :=
  ops.foldl (fun st o => EXP3Strategy.update st o.1 o.2) s

/-- The structural invariant of an EXP3 state: the vectors have
`numMachines` entries, there is at least one machine, all weights are
positive, and `probabilities` is the vector last computed by
`updateProbabilities` from the current weights. -/
noncomputable def exp3Inv (s : EXP3State) : Prop :=
  s.weights.length = s.numMachines ∧
  s.machineEstimates.length = s.numMachines ∧
  0 < s.numMachines ∧
  (∀ w ∈ s.weights, 0 < w) ∧
  s.probabilities = EXP3Strategy.computeProbabilities s.gamma s.numMachines s.weights

lemma list_sum_map_affine (l : List ℝ) (a b c : ℝ) :
    (l.map (fun w => a * (w * b) + c)).sum = a * (l.sum * b) + (l.length : ℝ) * c := by
  induction l with
  | nil => simp
  | cons x xs ih =>
    simp [ih]
    ring

lemma exp3_probabilities_sum (s : EXP3State) (h : exp3Inv s) :
    s.probabilities.sum = 1 := by
  obtain ⟨hlen, _, hk, hpos, hprob⟩ := h
  have hne : s.weights ≠ [] := by
    intro hnil
    rw [hnil] at hlen
    simp at hlen
    omega
  have hW : 0 < s.weights.sum := List.sum_pos s.weights hpos hne
  have hkR : ((s.numMachines : ℝ)) ≠ 0 := by
    exact_mod_cast Nat.pos_iff_ne_zero.mp hk
  rw [hprob]
  unfold EXP3Strategy.computeProbabilities
  simp only [div_eq_mul_inv]
  rw [list_sum_map_affine, hlen, mul_inv_cancel₀ (ne_of_gt hW), mul_one]
  field_simp

lemma exp3_initializeState_inv (configs : List ℕ) (gammaOpt etaOpt : Option ℝ)
    (hne : configs ≠ []) :
    exp3Inv (EXP3Strategy.initializeState configs gammaOpt etaOpt) := by
  unfold exp3Inv EXP3Strategy.initializeState
  refine ⟨by simp, by simp, ?_, ?_, by simp⟩
  · simpa [List.length_pos] using hne
  · intro w hw
    simp at hw
    simp [hw]

lemma exp3_update_inv (s : EXP3State) (machineId : ℕ) (payout : ℝ) (h : exp3Inv s) :
    exp3Inv (EXP3Strategy.update s machineId payout) := by
  obtain ⟨hlen, hmlen, hk, hpos, hprob⟩ := h
  cases hfind : s.machineEstimates.findIdx? (fun m => m.id == machineId) with
  | none =>
    simp only [EXP3Strategy.update, hfind]
    exact ⟨hlen, hmlen, hk, hpos, hprob⟩
  | some machineIndex =>
    have hidx : machineIndex < s.machineEstimates.length :=
      (List.findIdx?_eq_some_iff_findIdx_eq.mp hfind).1
    have hidxw : machineIndex < s.weights.length := by omega
    simp only [EXP3Strategy.update, hfind]
    refine ⟨?_, ?_, hk, ?_, ?_⟩
    · simpa [EXP3Strategy.updateProbabilities] using hlen
    · simp [EXP3Strategy.updateProbabilities]
      omega
    · intro w hw
      simp only [EXP3Strategy.updateProbabilities] at hw
      rcases List.mem_or_eq_of_mem_set hw with hmem | heq
      · exact hpos w hmem
      · subst heq
        refine mul_pos ?_ (Real.exp_pos _)
        have hg : s.weights.getD machineIndex 0 = s.weights.get ⟨machineIndex, hidxw⟩ := by
          simp [List.getD_eq_getElem?_getD, List.getElem?_eq_getElem hidxw]
        rw [hg]
        exact hpos _ (List.get_mem _ _ _)
    · simp [EXP3Strategy.updateProbabilities]

lemma exp3_applyUpdates_inv (ops : List (ℕ × ℝ)) :
    ∀ s : EXP3State, exp3Inv s → exp3Inv (exp3ApplyUpdates s ops) := by
  induction ops with
  | nil => intro s h; exact h
  | cons o rest ih =>
    intro s h
    simp only [exp3ApplyUpdates, List.foldl_cons]
    exact ih _ (exp3_update_inv s o.1 o.2 h)

lemma exp3_update_params (s : EXP3State) (machineId : ℕ) (payout : ℝ) :
    (EXP3Strategy.update s machineId payout).gamma = s.gamma ∧
    (EXP3Strategy.update s machineId payout).numMachines = s.numMachines := by
  cases hfind : s.machineEstimates.findIdx? (fun m => m.id == machineId) with
  | none => simp [EXP3Strategy.update, hfind]
  | some machineIndex => simp [EXP3Strategy.update, hfind, EXP3Strategy.updateProbabilities]

lemma exp3_applyUpdates_params (ops : List (ℕ × ℝ)) :
    ∀ s : EXP3State, (exp3ApplyUpdates s ops).gamma = s.gamma ∧
      (exp3ApplyUpdates s ops).numMachines = s.numMachines := by
  induction ops with
  | nil => intro s; exact ⟨rfl, rfl⟩
  | cons o rest ih =>
    intro s
    simp only [exp3ApplyUpdates, List.foldl_cons] at ih ⊢
    refine ⟨(ih _).1.trans (exp3_update_params s o.1 o.2).1,
      (ih _).2.trans (exp3_update_params s o.1 o.2).2⟩

/-- Claim C6: for any machine set, any `gamma` in `[0, 1]` (and any `eta`),
after initialization and after every sequence of `update` calls, each
machine's probability equals `(1 - gamma) * (w_i / sum of weights) +
gamma / k` and the probabilities sum to exactly 1 in real arithmetic. -/
theorem C6_exp3_probabilities (configs : List ℕ) (γ η : ℝ) (ops : List (ℕ × ℝ))
    (hne : configs ≠ []) (hγ0 : 0 ≤ γ) (hγ1 : γ ≤ 1) :
    ((exp3ApplyUpdates (EXP3Strategy.initializeState configs (some γ) (some η))
        ops).probabilities =
      (exp3ApplyUpdates (EXP3Strategy.initializeState configs (some γ) (some η))
        ops).weights.map
        (fun w => (1 - γ) *
          (w / (exp3ApplyUpdates (EXP3Strategy.initializeState configs (some γ) (some η))
            ops).weights.sum) +
          γ / ((exp3ApplyUpdates (EXP3Strategy.initializeState configs (some γ) (some η))
            ops).numMachines : ℝ))) ∧
    (exp3ApplyUpdates (EXP3Strategy.initializeState configs (some γ) (some η))
      ops).probabilities.sum = 1 := by
  have hInv := exp3_applyUpdates_inv ops _ (exp3_initializeState_inv configs (some γ) (some η) hne)
  have hpar := exp3_applyUpdates_params ops (EXP3Strategy.initializeState configs (some γ) (some η))
  have hγeq : (exp3ApplyUpdates (EXP3Strategy.initializeState configs (some γ) (some η))
      ops).gamma = γ := by
    rw [hpar.1]
    rfl
  refine ⟨?_, exp3_probabilities_sum _ hInv⟩
  have hform := hInv.2.2.2.2
  rw [hform, EXP3Strategy.computeProbabilities, hγeq]

/-- Witness for C6 at `k = 2`, `gamma = eta = 0.1` and the empty update
sequence. -/
theorem C6_exp3_probabilities_witness :
    (([0, 1] : List ℕ) ≠ [] ∧ (0 : ℝ) ≤ 1/10 ∧ (1/10 : ℝ) ≤ 1) ∧
    (exp3ApplyUpdates
      (EXP3Strategy.initializeState [0, 1] (some (1/10)) (some (1/10)))
      []).probabilities.sum = 1 :=
  ⟨⟨by simp, by norm_num, by norm_num⟩,
   (C6_exp3_probabilities [0, 1] (1/10) (1/10) [] (by simp) (by norm_num) (by norm_num)).2⟩

/-! ### EXP3-R strategy (`EXP3RStrategy.js`) -/

/-- Per-machine estimate record of `EXP3RStrategy`. -/
structure EXP3RMachine where
  id : ℕ
  pulls : ℕ
  totalPayout : ℝ
  mean : ℝ
  probability : ℝ
  weight : ℝ
  recentPayouts : List ℝ
  changeDetected : Bool
  lastReset : ℕ
deriving Inhabited

/-- Mutable state of an `EXP3RStrategy` instance. -/
structure EXP3RState where
  numMachines : ℕ
  totalPulls : ℕ
  gamma : ℝ
  eta : ℝ
  windowSize : ℕ
  thresholdMultiplier : ℝ
  weights : List ℝ
  probabilities : List ℝ
  rewardWindows : List (List ℝ)
  rewardVariances : List ℝ
  lastResets : List ℕ
  machineEstimates : List EXP3RMachine
deriving Inhabited

namespace EXP3RStrategy

/-- `EXP3RStrategy.updateProbabilities()`: identical to the EXP3 version. -/
noncomputable def updateProbabilities (s : EXP3RState) : EXP3RState :=
  let probs := EXP3Strategy.computeProbabilities s.gamma s.numMachines s.weights
  let newEstimates := s.machineEstimates.enum.map
    (fun p => { p.2 with probability := probs.getD p.1 0, weight := s.weights.getD p.1 0 })
  { s with probabilities := probs, machineEstimates := newEstimates }

/-- `EXP3RStrategy.detectChange(machineIndex, payout)`: pushes the payout
into the machine's sliding window (and `recentPayouts`), trims both to the
window size, stores the window variance once at least five samples exist,
and — when the machine has at least 10 pulls and 10 rounds have passed since
its last reset — flags a change when the window mean deviates from the
running mean by more than `thresholdMultiplier` standard deviations (with
`stdDev > 0.01`).  Returns the flag and the mutated state. -/
noncomputable def detectChange (s : EXP3RState) (machineIndex : ℕ) (payout : ℝ) :
    Bool × EXP3RState :=
  let window0 := (s.rewardWindows.getD machineIndex []) ++ [payout]
  let machine0 := s.machineEstimates.getD machineIndex default
  let recent0 := machine0.recentPayouts ++ [payout]
  let window := if s.windowSize < window0.length then window0.tail else window0
  let recent := if s.windowSize < window0.length then recent0.tail else recent0
  let machine1 := { machine0 with recentPayouts := recent }
  let s1 := { s with
    rewardWindows := s.rewardWindows.set machineIndex window,
    machineEstimates := s.machineEstimates.set machineIndex machine1 }
  if window.length < 5 then (false, s1)
  else
    let currentMean := window.sum / (window.length : ℝ)
    let variance := (window.map (fun v => (v - currentMean) ^ 2)).sum / (window.length : ℝ)
    let s2 := { s1 with rewardVariances := s1.rewardVariances.set machineIndex variance }
    if machine0.pulls < 10 then (false, s2)
    else if s.totalPulls - s.lastResets.getD machineIndex 0 < 10 then (false, s2)
    else
      let stdDev := Real.sqrt variance
      let meanDiff := |currentMean - machine0.mean|
      if meanDiff > s.thresholdMultiplier * stdDev ∧ stdDev > 0.01 then (true, s2)
      else (false, s2)

/-- `EXP3RStrategy.resetMachine(machineIndex)`: weight back to 1, reset
markers recorded, the machine's window cleared (but not `recentPayouts`),
probabilities recomputed. -/
noncomputable def resetMachine (s : EXP3RState) (machineIndex : ℕ) : EXP3RState :=
  let s1 := { s with
    weights := s.weights.set machineIndex 1,
    lastResets := s.lastResets.set machineIndex s.totalPulls }
  let machine := s1.machineEstimates.getD machineIndex default
  let machineR := { machine with lastReset := s.totalPulls, changeDetected := true }
  let s2 := { s1 with machineEstimates := s1.machineEstimates.set machineIndex machineR }
  let s3 := { s2 with rewardWindows := s2.rewardWindows.set machineIndex [] }
  updateProbabilities s3

/-- `EXP3RStrategy.handlePermutation(newConfigs)`: the push-notification hook
— it unconditionally resets every machine's weight, window and reset marker
and recomputes probabilities. -/
noncomputable def handlePermutationHook (s : EXP3RState) : EXP3RState :=
  let s1 := { s with
    weights := List.replicate s.numMachines 1,
    rewardWindows := List.replicate s.numMachines [],
    lastResets := List.replicate s.numMachines s.totalPulls }
  let resetEstimates := s1.machineEstimates.map
    (fun m => { m with changeDetected := true, lastReset := s.totalPulls,
                       recentPayouts := [] })
  let s2 := { s1 with machineEstimates := resetEstimates }
  updateProbabilities s2

/-- `EXP3RStrategy.update(machineId, payout)`: `totalPulls` is incremented
first; an unknown id returns early; otherwise the machine statistics are
updated, drift detection runs (mutating windows), and either the machine is
reset or the usual EXP3 weight update is applied followed by the 30-round
decay of the `changeDetected` flag. -/
noncomputable def update (s : EXP3RState) (machineId : ℕ) (payout : ℝ) : EXP3RState :=
  let s1 := { s with totalPulls := s.totalPulls + 1 }
  match s1.machineEstimates.findIdx? (fun m => m.id == machineId) with
  | none => s1
  | some machineIndex =>
    let machine := s1.machineEstimates.getD machineIndex default
    let updatedMachine :=
      let pulls := machine.pulls + 1
      let total := machine.totalPayout + payout
      { machine with pulls := pulls, totalPayout := total, mean := total / (pulls : ℝ) }
    let s2 := { s1 with machineEstimates := s1.machineEstimates.set machineIndex updatedMachine }
    let dc := detectChange s2 machineIndex payout
    if dc.1 then resetMachine dc.2 machineIndex
    else
      let normalizedPayout := (payout + 10) / 20
      let estimatedReward := normalizedPayout / updatedMachine.probability
      let newWeights := dc.2.weights.set machineIndex
        ((dc.2.weights.getD machineIndex 0) *
          Real.exp (s1.eta * estimatedReward / (s1.numMachines : ℝ)))
      let s3 := { dc.2 with weights := newWeights }
      let s4 := updateProbabilities s3
      let m4 := s4.machineEstimates.getD machineIndex default
      let m5 := { m4 with changeDetected := false }
      if m4.changeDetected = true ∧ 30 < s1.totalPulls - m4.lastReset then
        { s4 with machineEstimates := s4.machineEstimates.set machineIndex m5 }
      else s4

end EXP3RStrategy

/-- An array slot value as JavaScript arithmetic produces it: a number, or
the `NaN` that results from incrementing an out-of-range (`undefined`)
element; a missing slot is `Option.none`. -/
inductive JSNum where
  | nan : JSNum
  | num : ℚ → JSNum
deriving DecidableEq

/-- JavaScript `a[i]++` on a sparse numeric array: a numeric slot is
incremented, while `undefined++` and `NaN++` both store `NaN` at `i`. -/
def jsIncrement (a : ℕ → Option JSNum) (i : ℕ) : ℕ → Option JSNum :=
  fun j =>
    if j = i then
      some (match a i with
            | some (JSNum.num q) => JSNum.num (q + 1)
            | _ => JSNum.nan)
    else a j

/-- The play-time counters of an `OptimalPolicyStrategy` instance: the
`counts`, `successes` and `failures` arrays of size `k`
(`Array(k).fill(0)`), modelled sparsely so that out-of-range writes are
visible. -/
structure OptimalRuntimeState where
  k : ℕ
  counts : ℕ → Option JSNum
  successes : ℕ → Option JSNum
  failures : ℕ → Option JSNum

namespace OptimalPolicyStrategy

/-- The counter arrays as `initialize` leaves them: zeros on `0 .. k-1`,
holes elsewhere. -/
def initRuntime (k : ℕ) : OptimalRuntimeState :=
  ⟨k, fun i => if i < k then some (JSNum.num 0) else none,
     fun i => if i < k then some (JSNum.num 0) else none,
     fun i => if i < k then some (JSNum.num 0) else none⟩

/-- `OptimalPolicyStrategy.update(machineId, payout)`: unconditionally
`this.counts[machineId]++`, then `successes[machineId]++` when the payout is
1 and `failures[machineId]++` otherwise.  There is no unknown-id guard and
no total-pulls counter; an out-of-range `machineId` writes `NaN` into the
arrays. -/
def update (s : OptimalRuntimeState) (machineId : ℕ) (payout : ℚ) :
    OptimalRuntimeState :=
  let counts := jsIncrement s.counts machineId
  if payout = 1 then
    { s with counts := counts, successes := jsIncrement s.successes machineId }
  else
    { s with counts := counts, failures := jsIncrement s.failures machineId }

end OptimalPolicyStrategy

/-- Counterexample to claim C10 as stated over every strategy variant: the
Optimal DP policy's `update` has no unknown-id error branch at all — on a
fresh one-arm instance, `update(5, 1)` changes the per-arm state, turning
the absent slots `counts[5]` and `successes[5]` into `NaN`, and the
strategy has no total-pulls counter that could be incremented. -/
theorem C10_counterexample :
    (OptimalPolicyStrategy.initRuntime 1).counts 5 = none ∧
    (OptimalPolicyStrategy.update (OptimalPolicyStrategy.initRuntime 1) 5 1).counts 5 =
      some JSNum.nan ∧
    (OptimalPolicyStrategy.update (OptimalPolicyStrategy.initRuntime 1) 5 1).successes 5 =
      some JSNum.nan := by
  refine ⟨rfl, ?_, ?_⟩ <;> decide

/-- Claim C10, amended: for each of the five coordinator-selectable strategy
variants (UCB, Non-Stationary UCB, EXP3, EXP3-R, A/B-test), calling
`update` with a machine id outside the configured machine set leaves every
per-machine statistic (and, for the EXP3 variants, the weight, probability,
window and variance vectors) unchanged, but the strategy's `totalPulls`
counter has already been incremented when the unknown id is detected, so
the early-return error branch is not atomic with respect to the whole
strategy state.  The Optimal DP policy variant has no such guard and no
total-pulls counter (see the counterexample). -/
theorem C10_unknown_id_update :
    (∀ (s : UCBState) (machineId : ℕ) (r : ℝ),
      (∀ m ∈ s.machineEstimates, m.id ≠ machineId) →
      UCBStrategy.update s machineId r = { s with totalPulls := s.totalPulls + 1 }) ∧
    (∀ (s : NSUCBState) (machineId : ℕ) (r : ℝ),
      (∀ m ∈ s.machineEstimates, m.id ≠ machineId) →
      NonStationaryUCBStrategy.update s machineId r =
        { s with totalPulls := s.totalPulls + 1 }) ∧
    (∀ (s : EXP3State) (machineId : ℕ) (r : ℝ),
      (∀ m ∈ s.machineEstimates, m.id ≠ machineId) →
      EXP3Strategy.update s machineId r = { s with totalPulls := s.totalPulls + 1 }) ∧
    (∀ (s : EXP3RState) (machineId : ℕ) (r : ℝ),
      (∀ m ∈ s.machineEstimates, m.id ≠ machineId) →
      EXP3RStrategy.update s machineId r = { s with totalPulls := s.totalPulls + 1 }) ∧
    (∀ (s : ABTestState) (machineId : ℕ) (r : ℝ),
      (∀ m ∈ s.machineEstimates, m.id ≠ machineId) →
      ABTestStrategy.update s machineId r = { s with totalPulls := s.totalPulls + 1 }) := by
  refine ⟨?_, ?_, ?_, ?_, ?_⟩
  · intro s machineId r h
    have hany : s.machineEstimates.any (fun m => m.id == machineId) = false := by
      simp only [List.any_eq_false, beq_iff_eq]
      exact fun m hm => h m hm
    simp [UCBStrategy.update, hany]
  · intro s machineId r h
    have hany : s.machineEstimates.any (fun m => m.id == machineId) = false := by
      simp only [List.any_eq_false, beq_iff_eq]
      exact fun m hm => h m hm
    simp [NonStationaryUCBStrategy.update, hany]
  · intro s machineId r h
    have hnone : s.machineEstimates.findIdx? (fun m => m.id == machineId) = none := by
      rw [List.findIdx?_eq_none_iff]
      intro m hm
      simp [h m hm]
    simp [EXP3Strategy.update, hnone]
  · intro s machineId r h
    have hnone : s.machineEstimates.findIdx? (fun m => m.id == machineId) = none := by
      rw [List.findIdx?_eq_none_iff]
      intro m hm
      simp [h m hm]
    simp [EXP3RStrategy.update, hnone]
  · intro s machineId r h
    have hany : s.machineEstimates.any (fun m => m.id == machineId) = false := by
      simp only [List.any_eq_false, beq_iff_eq]
      exact fun m hm => h m hm
    simp [ABTestStrategy.update, hany]

/-- Witness for C10: fresh two-machine instances of UCB, Non-Stationary UCB
and EXP3 updated with the unknown machine id 5. -/
theorem C10_unknown_id_update_witness :
    ((∀ m ∈ (UCBStrategy.initializeState [0, 1]).machineEstimates, m.id ≠ 5) ∧
      UCBStrategy.update (UCBStrategy.initializeState [0, 1]) 5 3 =
        { UCBStrategy.initializeState [0, 1] with
            totalPulls := (UCBStrategy.initializeState [0, 1]).totalPulls + 1 }) ∧
    ((∀ m ∈ (NonStationaryUCBStrategy.initializeState [0, 1] none none none).machineEstimates,
        m.id ≠ 5) ∧
      NonStationaryUCBStrategy.update
          (NonStationaryUCBStrategy.initializeState [0, 1] none none none) 5 3 =
        { NonStationaryUCBStrategy.initializeState [0, 1] none none none with
            totalPulls :=
              (NonStationaryUCBStrategy.initializeState [0, 1] none none none).totalPulls + 1 }) ∧
    ((∀ m ∈ (EXP3Strategy.initializeState [0, 1] none none).machineEstimates, m.id ≠ 5) ∧
      EXP3Strategy.update (EXP3Strategy.initializeState [0, 1] none none) 5 3 =
        { EXP3Strategy.initializeState [0, 1] none none with
            totalPulls := (EXP3Strategy.initializeState [0, 1] none none).totalPulls + 1 }) :=
  ⟨⟨by simp [UCBStrategy.initializeState],
    C10_unknown_id_update.1 (UCBStrategy.initializeState [0, 1]) 5 3
      (by simp [UCBStrategy.initializeState])⟩,
   ⟨by simp [NonStationaryUCBStrategy.initializeState],
    C10_unknown_id_update.2.1 (NonStationaryUCBStrategy.initializeState [0, 1] none none none)
      5 3 (by simp [NonStationaryUCBStrategy.initializeState])⟩,
   ⟨by
      intro m hm
      simp [EXP3Strategy.initializeState, List.enum, List.enumFrom] at hm
      rcases hm with rfl | rfl <;> norm_num,
    C10_unknown_id_update.2.2.1 (EXP3Strategy.initializeState [0, 1] none none) 5 3
      (by
        intro m hm
        simp [EXP3Strategy.initializeState, List.enum, List.enumFrom] at hm
        rcases hm with rfl | rfl <;> norm_num)⟩⟩

/-! ### Round reward generation (`slotMachine.js` in part_005, `chart.js`)
and the multi-strategy coordinator (`multiStrategy.js`) -/

/-- An arm configuration: slot id, distribution family name and parameter
vector (`currentMachineConfigs` entries). -/
structure MachineConfig where
  id : ℕ
  distribution : String
  parameters : List ℚ
deriving Inhabited, DecidableEq

/-- `generateRoundPayouts(pulledMachineId, actualPayout)` from
`slotMachine.js`: for each configured machine, the pulled machine keeps the
user's actual payout and every other machine is sampled once from its
current distribution; the result is the per-round payout map (as an
association list in configuration order) plus the next draw index. -/
noncomputable def generateRoundPayouts :
    List MachineConfig → ℕ → ℝ → DrawS → ℕ → List (ℕ × ℝ) × ℕ
  | [], _, _, _, i => ([], i)
  | c :: rest, pulledMachineId, actualPayout, s, i =>
    if c.id = pulledMachineId then
      let tail := generateRoundPayouts rest pulledMachineId actualPayout s i
      ((c.id, actualPayout) :: tail.1, tail.2)
    else
      let v := Distributions.sample c.distribution c.parameters s i
      let tail := generateRoundPayouts rest pulledMachineId actualPayout s v.2
      ((c.id, v.1) :: tail.1, tail.2)

/-- `generateConsistentRoundPayouts(pulledMachineId, actualPayout)` from
`chart.js`: the pulled machine keeps the actual payout; for the others a
deterministic hash of `(roundSeed, machine.id)` replaces the random draw for
the bernoulli and normal families, while every other family falls back to a
fresh `Distributions.sample` call on the live random stream. -/
noncomputable def generateConsistentRoundPayouts :
    List MachineConfig → ℕ → ℝ → ℕ → DrawS → ℕ → List (ℕ × ℝ) × ℕ
  | [], _, _, _, _, i => ([], i)
  | machine :: rest, pulledMachineId, actualPayout, roundSeed, s, i =>
    if machine.id = pulledMachineId then
      let tail := generateConsistentRoundPayouts rest pulledMachineId actualPayout roundSeed s i
      ((machine.id, actualPayout) :: tail.1, tail.2)
    else
      let hash : ℕ := (roundSeed * 9301 + machine.id * 49297) % 233280
      let randomValue : ℚ := (hash : ℚ) / 233280
      match machine.distribution with
      | "bernoulli" =>
        let payout : ℝ := if randomValue < machine.parameters.getD 0 0 then 1 else 0
        let tail := generateConsistentRoundPayouts rest pulledMachineId actualPayout roundSeed s i
        ((machine.id, payout) :: tail.1, tail.2)
      | "normal" =>
        let u1 := randomValue
        let u2 : ℚ := ((hash * 7919) % 233280 : ℕ) / 233280
        let z := Real.sqrt (-2 * Real.log (u1 : ℝ)) * Real.cos (2 * Real.pi * (u2 : ℝ))
        let payout : ℝ := (machine.parameters.getD 0 0 : ℝ) +
          (machine.parameters.getD 1 0 : ℝ) * z
        let tail := generateConsistentRoundPayouts rest pulledMachineId actualPayout roundSeed s i
        ((machine.id, payout) :: tail.1, tail.2)
      | _ =>
        let v := Distributions.sample machine.distribution machine.parameters s i
        let tail := generateConsistentRoundPayouts rest pulledMachineId actualPayout roundSeed s v.2
        ((machine.id, v.1) :: tail.1, tail.2)

/-- `EXP3RStrategy.selectMachine()`: textually identical to the EXP3 walk. -/
noncomputable def EXP3RStrategy.selectMachine (s : EXP3RState) (rand : ℝ) : ℕ :=
  (EXP3Strategy.selectLoop rand 0
      (s.probabilities.zip (s.machineEstimates.map (fun m => m.id)))).getD
    ((s.machineEstimates.getLastD default).id)

/-- The closed set of instances the coordinator can hold: one constructor
per type the `StrategyFactory` supports (`ucb`, `ns-ucb`, `abtest`, `exp3`,
`exp3r` in `MultiStrategyManager.strategies`). -/
inductive StrategyInstance where
  | ucbStrategy (s : UCBState)
  | nsucbStrategy (s : NSUCBState)
  | exp3Strategy (s : EXP3State)
  | exp3rStrategy (s : EXP3RState)
  | abtestStrategy (s : ABTestState)

/-- Dispatch of `strategy.selectMachine()`; EXP3 and EXP3-R consume the
random draw passed in, the UCB variants and A/B-test ignore it (their
selection is deterministic) but may mutate their own state. -/
noncomputable def StrategyInstance.selectMachine :
    StrategyInstance → ℝ → ℕ × StrategyInstance
  | .ucbStrategy s, _ =>
    let sel := UCBStrategy.selectMachine s
    (sel.1, .ucbStrategy sel.2)
  | .nsucbStrategy s, _ =>
    let sel := NonStationaryUCBStrategy.selectMachine s
    (sel.1, .nsucbStrategy sel.2)
  | .exp3Strategy s, rand => (EXP3Strategy.selectMachine s rand, .exp3Strategy s)
  | .exp3rStrategy s, rand => (EXP3RStrategy.selectMachine s rand, .exp3rStrategy s)
  | .abtestStrategy s, _ =>
    let sel := ABTestStrategy.selectMachine s
    (sel.1, .abtestStrategy sel.2)

/-- Dispatch of `strategy.update(machineId, payout)`. -/
noncomputable def StrategyInstance.update :
    StrategyInstance → ℕ → ℝ → StrategyInstance
  | .ucbStrategy s, machineId, payout => .ucbStrategy (UCBStrategy.update s machineId payout)
  | .nsucbStrategy s, machineId, payout =>
    .nsucbStrategy (NonStationaryUCBStrategy.update s machineId payout)
  | .exp3Strategy s, machineId, payout => .exp3Strategy (EXP3Strategy.update s machineId payout)
  | .exp3rStrategy s, machineId, payout => .exp3rStrategy (EXP3RStrategy.update s machineId payout)
  | .abtestStrategy s, machineId, payout => .abtestStrategy (ABTestStrategy.update s machineId payout)

/-- `MultiStrategyManager.simulateStrategiesWithPayouts(roundPayouts)`: for
each active strategy, ask it for its recommendation, look that machine up in
the single pre-generated payout map of the round, and update the strategy
with exactly that payout (a missing entry only logs an error and skips the
update).  The `j`-th strategy's selection draw is `draws j`. -/
noncomputable def simulateStrategiesWithPayouts
    (strategies : List (String × StrategyInstance)) (roundPayouts : List (ℕ × ℝ))
    (draws : ℕ → ℝ) : List (String × StrategyInstance) :=
  strategies.enum.map (fun p =>
    let sel := p.2.2.selectMachine (draws p.1)
    match roundPayouts.lookup sel.1 with
    | some payout => (p.2.1, sel.2.update sel.1 payout)
    | none => (p.2.1, sel.2))

/-- The (machine, payout) pairs actually fed to `update` during
`simulateStrategiesWithPayouts` — the audit trail of the round. -/
noncomputable def simulatedUpdates
    (strategies : List (String × StrategyInstance)) (roundPayouts : List (ℕ × ℝ))
    (draws : ℕ → ℝ) : List (ℕ × ℝ) :=
  strategies.enum.filterMap (fun p =>
    let sel := p.2.2.selectMachine (draws p.1)
    (roundPayouts.lookup sel.1).map (fun payout => (sel.1, payout)))

/-- Claim C7, amended: for every coordinator-selectable strategy variant
(UCB, Non-Stationary UCB, EXP3, EXP3-R, A/B-test), `selectMachine` never
changes the reward statistics (`totalPulls` and each machine's `id`,
`pulls`, `totalPayout`, `mean`, and for Non-Stationary UCB also its window
and change-detection accumulators).  UCB and Non-Stationary UCB rewrite
only the cached `ucb` fields and are idempotent — a second consecutive call
returns the same machine and leaves the state fixed.  EXP3 and EXP3-R read
the state and the fresh random draw and write nothing.  For the A/B-test
strategy the machine estimates and `totalPulls` are untouched, and in the
committed phase `selectMachine` is a pure read returning `bestMachineId`;
during exploration, however, it advances the round-robin cursor (see the
counterexample). -/
theorem C7_select_preserves_statistics :
    (∀ s : UCBState,
      (UCBStrategy.selectMachine s).2.totalPulls = s.totalPulls ∧
      ((UCBStrategy.selectMachine s).2.machineEstimates.map
          (fun m => (m.id, m.pulls, m.totalPayout, m.mean)) =
        s.machineEstimates.map (fun m => (m.id, m.pulls, m.totalPayout, m.mean))) ∧
      UCBStrategy.selectMachine (UCBStrategy.selectMachine s).2 =
        ((UCBStrategy.selectMachine s).1, (UCBStrategy.selectMachine s).2)) ∧
    (∀ s : NSUCBState,
      (NonStationaryUCBStrategy.selectMachine s).2.totalPulls = s.totalPulls ∧
      ((NonStationaryUCBStrategy.selectMachine s).2.machineEstimates.map
          (fun m => (m.id, m.pulls, m.totalPayout, m.mean, m.recentPayouts,
            m.sumDeviations, m.minSumDeviations, m.lastChangePoint, m.changeDetected)) =
        s.machineEstimates.map
          (fun m => (m.id, m.pulls, m.totalPayout, m.mean, m.recentPayouts,
            m.sumDeviations, m.minSumDeviations, m.lastChangePoint, m.changeDetected))) ∧
      NonStationaryUCBStrategy.selectMachine (NonStationaryUCBStrategy.selectMachine s).2 =
        ((NonStationaryUCBStrategy.selectMachine s).1,
         (NonStationaryUCBStrategy.selectMachine s).2)) ∧
    (∀ (s : EXP3State) (rand : ℝ),
      StrategyInstance.selectMachine (StrategyInstance.exp3Strategy s) rand =
        (EXP3Strategy.selectMachine s rand, StrategyInstance.exp3Strategy s)) ∧
    (∀ (s : EXP3RState) (rand : ℝ),
      StrategyInstance.selectMachine (StrategyInstance.exp3rStrategy s) rand =
        (EXP3RStrategy.selectMachine s rand, StrategyInstance.exp3rStrategy s)) ∧
    (∀ s : ABTestState,
      (ABTestStrategy.selectMachine s).2.totalPulls = s.totalPulls ∧
      (ABTestStrategy.selectMachine s).2.machineEstimates = s.machineEstimates) ∧
    (∀ s : ABTestState, s.explorationCompleted = true →
      s.explorationPhaseLength ≤ s.totalPulls →
      ABTestStrategy.selectMachine s = (s.bestMachineId.getD 0, s)) := by
  refine ⟨?_, ?_, ?_, ?_, ?_, ?_⟩
  · intro s
    refine ⟨rfl, ?_, ?_⟩
    · simp [UCBStrategy.selectMachine, List.map_map]
    · unfold UCBStrategy.selectMachine
      simp only [List.map_map]
      rfl
  · intro s
    refine ⟨rfl, ?_, ?_⟩
    · simp [NonStationaryUCBStrategy.selectMachine, List.map_map]
    · unfold NonStationaryUCBStrategy.selectMachine
      simp only [List.map_map]
      rfl
  · intro s rand
    rfl
  · intro s rand
    rfl
  · intro s
    unfold ABTestStrategy.selectMachine
    by_cases hlt : s.totalPulls < s.explorationPhaseLength
    · simp [hlt]
    · by_cases hc : s.explorationCompleted = false <;> simp [hlt, hc]
  · intro s h1 h2
    exact ABTestStrategy.select_committed s h1 h2

/-- Witness for the amended C7 at concrete states: a committed A/B-test state
on which `selectMachine` is a pure read, and the UCB statistics preservation
at a concrete one-machine state. -/
theorem C7_select_preserves_statistics_witness :
    ((⟨21, true, some 1, 10, 20, [], 21⟩ : ABTestState).explorationCompleted = true ∧
     (⟨21, true, some 1, 10, 20, [], 21⟩ : ABTestState).explorationPhaseLength ≤
       (⟨21, true, some 1, 10, 20, [], 21⟩ : ABTestState).totalPulls ∧
     ABTestStrategy.selectMachine (⟨21, true, some 1, 10, 20, [], 21⟩ : ABTestState) =
       ((⟨21, true, some 1, 10, 20, [], 21⟩ : ABTestState).bestMachineId.getD 0,
        (⟨21, true, some 1, 10, 20, [], 21⟩ : ABTestState))) ∧
    (UCBStrategy.selectMachine (UCBStrategy.initializeState [0])).2.totalPulls =
      (UCBStrategy.initializeState [0]).totalPulls ∧
    (NonStationaryUCBStrategy.selectMachine
        (NonStationaryUCBStrategy.initializeState [0] none none none)).2.totalPulls =
      (NonStationaryUCBStrategy.initializeState [0] none none none).totalPulls :=
  ⟨⟨rfl, by norm_num,
    C7_select_preserves_statistics.2.2.2.2.2 ⟨21, true, some 1, 10, 20, [], 21⟩ rfl
      (by norm_num)⟩,
   (C7_select_preserves_statistics.1 (UCBStrategy.initializeState [0])).1,
   (C7_select_preserves_statistics.2.1
      (NonStationaryUCBStrategy.initializeState [0] none none none)).1⟩

/-- The two-machine Bernoulli configuration used as the C1 counterexample. -/
def c1Configs : List MachineConfig :=
  [⟨0, "bernoulli", [1/2]⟩, ⟨1, "bernoulli", [1/2]⟩]

/-- Counterexample to claim C1: within one round (round seed `totalPulls =
0`, user pulled machine 0 with actual payout 1) the vector used to update
the strategies (`generateRoundPayouts`) gives machine 1 the reward 0 — the
sampler's missing-bernoulli default — while the vector consumed by the
payout-chart accountant and best-possible series
(`generateConsistentRoundPayouts`) gives machine 1 the reward 1 from its
hash draw `49297/233280 < 1/2`.  The two consumers of the same round
therefore observe different per-arm rewards. -/
theorem C1_counterexample :
    ((generateRoundPayouts c1Configs 0 1 (fun _ => 0) 0).1).lookup 1 = some 0 ∧
    ((generateConsistentRoundPayouts c1Configs 0 1 0 (fun _ => 0) 0).1).lookup 1 = some 1 ∧
    (generateRoundPayouts c1Configs 0 1 (fun _ => 0) 0).1 ≠
      (generateConsistentRoundPayouts c1Configs 0 1 0 (fun _ => 0) 0).1 := by
  have hA : (generateRoundPayouts c1Configs 0 1 (fun _ => 0) 0).1 =
      [(0, (1 : ℝ)), (1, (0 : ℝ))] := by
    norm_num [generateRoundPayouts, c1Configs]
    rfl
  have hB : (generateConsistentRoundPayouts c1Configs 0 1 0 (fun _ => 0) 0).1 =
      [(0, (1 : ℝ)), (1, (1 : ℝ))] := by
    norm_num [generateConsistentRoundPayouts, c1Configs]
  refine ⟨by rw [hA]; rfl, by rw [hB]; rfl, ?_⟩
  rw [hA, hB]
  intro h
  simp only [List.cons.injEq, Prod.mk.injEq] at h
  norm_num at h

/-- Claim C1, amended: within `pullLever` one reward vector per round is
computed once by `generateRoundPayouts` — one entry per configured arm, in
order, the pulled arm's entry being the user's actual payout — and every
active strategy's counterfactual update reward is read from that single
shared vector; the payout-chart accountant, however, consumes a separately
generated vector (`generateConsistentRoundPayouts`), which can differ from
it (see the counterexample), so chart consumers are not guaranteed the same
luck that the strategies observed. -/
theorem C1_single_vector_per_round :
    (∀ (configs : List MachineConfig) (pulledId : ℕ) (actual : ℝ) (s : DrawS) (i : ℕ),
      ((generateRoundPayouts configs pulledId actual s i).1).map Prod.fst =
        configs.map (fun c => c.id)) ∧
    (∀ (configs : List MachineConfig) (pulledId : ℕ) (actual : ℝ) (s : DrawS) (i : ℕ),
      pulledId ∈ configs.map (fun c => c.id) →
      ((generateRoundPayouts configs pulledId actual s i).1).lookup pulledId = some actual) ∧
    (∀ (strategies : List (String × StrategyInstance)) (roundPayouts : List (ℕ × ℝ))
      (draws : ℕ → ℝ) (pr : ℕ × ℝ),
      pr ∈ simulatedUpdates strategies roundPayouts draws →
      roundPayouts.lookup pr.1 = some pr.2) := by
  refine ⟨?_, ?_, ?_⟩
  · intro configs pulledId actual s
    induction configs with
    | nil => intro i; simp [generateRoundPayouts]
    | cons c rest ih =>
      intro i
      by_cases hc : c.id = pulledId <;>
        simp [generateRoundPayouts, hc, ih]
  · intro configs pulledId actual s
    induction configs with
    | nil => intro i h; simp at h
    | cons c rest ih =>
      intro i hmem
      by_cases hc : c.id = pulledId
      · simp [generateRoundPayouts, hc, List.lookup]
      · have hmem2 : pulledId ∈ rest.map (fun c => c.id) := by
          simp at hmem
          rcases hmem with h | h
          · exact absurd h.symm hc
          · simpa using h
        have hne : (pulledId == c.id) = false := by
          simp
          exact fun h => hc h.symm
        simp [generateRoundPayouts, hc, List.lookup, hne, ih _ hmem2]
  · intro strategies roundPayouts draws pr hpr
    simp only [simulatedUpdates, List.mem_filterMap] at hpr
    obtain ⟨p, _, hp⟩ := hpr
    rcases hlk : (roundPayouts.lookup (p.2.2.selectMachine (draws p.1)).1) with _ | payout
    · rw [hlk] at hp
      simp at hp
    · rw [hlk] at hp
      simp only [Option.map_some'] at hp
      injection hp with hp2
      cases hp2
      simpa using hlk

/-- Witness for the amended C1: the pulled arm's entry of the shared vector
is the actual payout at the concrete two-machine configuration. -/
theorem C1_single_vector_per_round_witness :
    (0 ∈ c1Configs.map (fun c => c.id)) ∧
    ((generateRoundPayouts c1Configs 0 (5 : ℝ) (fun _ => 0) 0).1).lookup 0 = some 5 :=
  ⟨by simp [c1Configs],
   C1_single_vector_per_round.2.1 c1Configs 0 5 (fun _ => 0) 0 (by simp [c1Configs])⟩

/-! ### Optimal DP policy (`OptimalPolicyStrategy` in part_008) -/

namespace OptimalPolicyStrategy

/-- Per-arm `(successes, failures)` entry of an arm configuration. -/
structure ArmCount where
  successes : ℕ
  failures : ℕ
deriving Inhabited, DecidableEq

/-- `serializeArmConfig(armConfig)`: the string key
`"s0,f0;s1,f1;..."` built left to right. -/
def serializeArmConfig (armConfig : List ArmCount) : String :=
  armConfig.foldl
    (fun key c => key ++ toString c.successes ++ "," ++ toString c.failures ++ ";") ""

/-- `nextArmConfig(currentConfig, arm, success)`: copy with the chosen arm's
success or failure count incremented. -/
def nextArmConfig (currentConfig : List ArmCount) (arm : ℕ) (success : Bool) :
    List ArmCount :=
  let c := currentConfig.getD arm default
  currentConfig.set arm
    (if success then { c with successes := c.successes + 1 }
     else { c with failures := c.failures + 1 })

/-- The recursion of `allArmConfigs(t)` over the remaining slots, mirroring
`generateConfigs(index, currentConfig, remainingPulls)`: the last slot takes
all remaining pulls as failures; earlier slots take `failures = 0 ..
remaining`.  As in the source, every generated entry has `successes = 0` —
the computed `successes` variable of the source is never stored. -/
def genConfigs : ℕ → ℕ → List (List ArmCount)
  | 0, _ => [[]]
  | 1, remaining => [[⟨0, remaining⟩]]
  | n + 2, remaining =>
    (List.range (remaining + 1)).flatMap
      (fun failures =>
        (genConfigs (n + 1) (remaining - failures)).map
          (fun rest => (⟨0, failures⟩ : ArmCount) :: rest))

/-- `allArmConfigs(t)` for `k` arms. -/
def allArmConfigs (k t : ℕ) : List (List ArmCount) := genConfigs k t

/-- The value/`OPT` tables of `computeOptimalPolicy`, keyed by time step and
serialized arm configuration (the middle dimension of the source arrays is
the constant placeholder `0`). -/
structure DPTables where
  values : ℕ → String → Option ℚ
  opt : ℕ → String → Option ℤ

/-- The inner double loop of one pass of the backward-induction `for` body at
time `t`: for every enumerated arm configuration, scan all arms, score
`successProb * (1 + V_{t+1}(success)) + failureProb * (0 + V_{t+1}(failure))`
with the Beta posterior, and store the best value and arm. -/
def dpBody (k : ℕ) (machinePriors : List (ℕ × ℚ × ℚ)) (t : ℕ) (tables : DPTables) :
    DPTables :=
  (allArmConfigs k t).foldl
    (fun tbl armConfig =>
      let best := (List.range k).foldl
        (fun (acc : ℚ × ℤ) arm =>
          let c := armConfig.getD arm default
          let prior := (machinePriors.find? (fun p => p.1 = arm)).getD (arm, 1, 1)
          let alpha := prior.2.1
          let beta := prior.2.2
          let successProb := (alpha + c.successes) /
            (alpha + beta + c.successes + c.failures)
          let valueSuccess :=
            (tbl.values (t + 1) (serializeArmConfig (nextArmConfig armConfig arm true))).getD 0
          let failureProb := (beta + c.failures) /
            (alpha + beta + c.successes + c.failures)
          let valueFailure :=
            (tbl.values (t + 1) (serializeArmConfig (nextArmConfig armConfig arm false))).getD 0
          let armValue := successProb * (1 + valueSuccess) + failureProb * (0 + valueFailure)
          if armValue > acc.1 then (armValue, (arm : ℤ)) else acc)
        (-1, -1)
      let key := serializeArmConfig armConfig
      { values := fun t2 k2 => if t2 = t ∧ k2 = key then some best.1 else tbl.values t2 k2,
        opt := fun t2 k2 => if t2 = t ∧ k2 = key then some best.2 else tbl.opt t2 k2 })
    tables

/-- The backward-induction loop `for (let t = H - 1; t >= 0; t >= 0)` of
`computeOptimalPolicy`.  The third clause of the source's `for` header is
the comparison `t >= 0`, not a decrement, so the loop variable never
changes; the embedding runs the loop for `fuel` turns and returns the final
tables only if the loop has exited by then. -/
def dpLoop (k : ℕ) (machinePriors : List (ℕ × ℚ × ℚ)) :
    ℕ → ℤ → DPTables → Option DPTables
  | 0, _, _ => none
  | fuel + 1, t, tables =>
    if 0 ≤ t then dpLoop k machinePriors fuel t (dpBody k machinePriors t.toNat tables)
    else some tables

/-- The `t = H` initialization of `computeOptimalPolicy`: value 0 for every
enumerated configuration at the horizon. -/
def initTables (k H : ℕ) : DPTables :=
  (allArmConfigs k H).foldl
    (fun tbl armConfig =>
      let key := serializeArmConfig armConfig
      { tbl with values := fun t2 k2 =>
          if t2 = H ∧ k2 = key then some 0 else tbl.values t2 k2 })
    ⟨fun _ _ => none, fun _ _ => none⟩

/-- `computeOptimalPolicy()` for `k` arms, priors `machinePriors` and horizon
`H`, run with `fuel` loop turns. -/
def computeOptimalPolicy (k : ℕ) (machinePriors : List (ℕ × ℚ × ℚ)) (H : ℕ)
    (fuel : ℕ) : Option DPTables :=
  dpLoop k machinePriors fuel ((H : ℤ) - 1) (initTables k H)

end OptimalPolicyStrategy

/-- Claim C2, on the code as written: the backward-induction loop of
`computeOptimalPolicy` never terminates for any horizon `H ≥ 1` and any arm
count, because the `for` header's update clause is the comparison `t >= 0`
instead of a decrement — `t` stays at `H - 1` forever, no amount of fuel
makes the loop exit, and no entry for any `t < H - 1` is ever stored.  (For
`H = 0` the loop body never runs.) -/
theorem C2_dp_loop_never_terminates :
    ∀ (fuel k H : ℕ) (machinePriors : List (ℕ × ℚ × ℚ)), 1 ≤ H →
      OptimalPolicyStrategy.computeOptimalPolicy k machinePriors H fuel = none := by
  have hloop : ∀ (k : ℕ) (machinePriors : List (ℕ × ℚ × ℚ)) (fuel : ℕ) (t : ℤ),
      0 ≤ t → ∀ tables, OptimalPolicyStrategy.dpLoop k machinePriors fuel t tables = none := by
    intro k machinePriors fuel
    induction fuel with
    | zero => intro t _ tables; rfl
    | succ n ih =>
      intro t ht tables
      simp only [OptimalPolicyStrategy.dpLoop, if_pos ht]
      exact ih t ht _
  intro fuel k H machinePriors hH
  unfold OptimalPolicyStrategy.computeOptimalPolicy
  exact hloop k machinePriors fuel _ (by omega) _

/-- Witness for C2: with one arm, horizon 1 and a `Beta(1,1)` prior the
computation exhausts any fuel — here 5 loop turns — without terminating. -/
theorem C2_dp_loop_never_terminates_witness :
    1 ≤ 1 ∧ OptimalPolicyStrategy.computeOptimalPolicy 1 [(0, 1, 1)] 1 5 = none :=
  ⟨le_rfl, C2_dp_loop_never_terminates 5 1 1 [(0, 1, 1)] le_rfl⟩

/-! ### Regret accountant (`regretChart.js` in part_007) -/

namespace RegretChart

/-- `getExpectedValue(machine)`: closed-form expected value per family. -/
def getExpectedValue (machine : MachineConfig) : ℚ :=
  match machine.distribution with
  | "normal" => machine.parameters.getD 0 0
  | "uniform" => (machine.parameters.getD 0 0 + machine.parameters.getD 1 0) / 2
  | "exponential" => 1 / machine.parameters.getD 0 0
  | "poisson" => machine.parameters.getD 0 0
  | "chi-squared" => machine.parameters.getD 0 0
  | "bernoulli" => machine.parameters.getD 0 0
  | _ => 0

/-- `determineBestMachine()`: scan for the highest expected value; the local
`highestEV` starts at `-Infinity` (modelled by `none`), the module state at
`(bestMachineIndex, bestMachineEV) = (-1, 0)` from the preceding reset. -/
def determineBestMachine (configs : List MachineConfig) : ℤ × ℚ :=
  (configs.enum.foldl
    (fun (acc : Option ℚ × ℤ × ℚ) p =>
      let ev := getExpectedValue p.2
      match acc.1 with
      | none => (some ev, (p.1 : ℤ), ev)
      | some h => if ev > h then (some ev, (p.1 : ℤ), ev) else acc)
    (none, -1, 0)).2

/-- One chart dataset: its label and its emitted series of points; a point
is `none` when JavaScript pushed `undefined`. -/
structure RegretDataset where
  label : String
  data : List (Option ℚ)
deriving Inhabited, DecidableEq

/-- The regret chart's data and the module-level accountant state of
`regretChart.js` (part_007). -/
structure RegretChartState where
  labels : List ℕ
  datasets : List RegretDataset
  userCumulativeRegret : ℚ
  strategyRegrets : List (String × ℚ)
  bestMachineIndex : ℤ
  bestMachineEV : ℚ
  machineConfigs : List MachineConfig
deriving DecidableEq

/-- `initializeRegretChart(configs)`: reset, determine the best machine and
create the chart with the single user dataset at point 0.  No best-possible
regret dataset is ever created. -/
def initializeRegretChart (configs : List MachineConfig) : RegretChartState :=
  let best := determineBestMachine configs
  { labels := [0]
    datasets := [⟨"Your Cumulative Regret", [some 0]⟩]
    userCumulativeRegret := 0
    strategyRegrets := []
    bestMachineIndex := best.1
    bestMachineEV := best.2
    machineConfigs := configs }

/-- `getStrategyLabel(strategyType)`. -/
def getStrategyLabel (strategyType : String) : String :=
  match strategyType with
  | "ucb" => "UCB"
  | "ns-ucb" => "Non-Stationary UCB"
  | "abtest" => "A/B Testing"
  | "exp3" => "EXP3"
  | "exp3r" => "EXP3-R"
  | _ => strategyType

/-- `addStrategyRegretDataset(strategyType)`: a new dataset labelled
`<label> Regret`, pre-filled with zeros up to `labels.length - 1` points,
appended after the existing datasets. -/
def addStrategyRegretDataset (st : RegretChartState) (strategyType : String) :
    RegretChartState :=
  let newDataset : RegretDataset :=
    ⟨getStrategyLabel strategyType ++ " Regret",
      List.replicate (st.labels.length - 1) (some 0)⟩
  { st with datasets := st.datasets ++ [newDataset] }

/-- JavaScript `array.slice(-maxN)` keeping the last `maxN` entries, applied
only when the array is longer. -/
def jsSliceLast (maxN : ℕ) (l : List α) : List α :=
  if maxN < l.length then l.drop (l.length - maxN) else l

/-- Increment the entry of `key` by `v`
(`strategyRegrets[strategyType] += strategyRegret`). -/
def assocBump (l : List (String × ℚ)) (key : String) (v : ℚ) : List (String × ℚ) :=
  updateFirst (fun p => p.1 == key) (fun p => (p.1, p.2 + v)) l

/-- `updateRegretChart(machinePulled, optimalMachineId, recommendations)`
from part_007, acting on the chart data and module state.  The strategy
dataset update contains the source's indexing slip: the value pushed is
`strategyRegrets[strategyDatasetIndex]` — a lookup of the *numeric dataset
index* (stringified, as JavaScript property access does) in the
string-keyed `strategyRegrets` object — which is always `undefined`
(`none`), not `strategyRegrets[strategyType]`. -/
def updateRegretChart (st : RegretChartState) (machinePulled : ℕ)
    (recommendations : List (String × ℕ)) (totalPulls : ℕ) : RegretChartState :=
  if st.bestMachineIndex = -1 ∨ st.bestMachineEV = 0 then st
  else
    match st.machineConfigs.find? (fun m => m.id == machinePulled) with
    | none => st
    | some pulledMachine =>
      let pulledEV := getExpectedValue pulledMachine
      let userRegret := max 0 (st.bestMachineEV - pulledEV)
      let st1 := { st with userCumulativeRegret := st.userCumulativeRegret + userRegret }
      let st2 := recommendations.foldl
        (fun acc rec =>
          match acc.machineConfigs.find? (fun m => m.id == rec.2) with
          | none => acc
          | some recommendedMachine =>
            let recommendedEV := getExpectedValue recommendedMachine
            let strategyRegret := max 0 (acc.bestMachineEV - recommendedEV)
            let acc1 :=
              if (acc.strategyRegrets.lookup rec.1).isNone then
                addStrategyRegretDataset
                  { acc with strategyRegrets := acc.strategyRegrets ++ [(rec.1, 0)] } rec.1
              else acc
            { acc1 with strategyRegrets := assocBump acc1.strategyRegrets rec.1 strategyRegret })
        st1
      let labels := jsSliceLast 100 (st2.labels ++ [totalPulls])
      let datasets0 :=
        match st2.datasets with
        | [] => []
        | d :: rest =>
          { d with data := jsSliceLast 100 (d.data ++ [some st2.userCumulativeRegret]) } :: rest
      let datasetsS := st2.strategyRegrets.foldl
        (fun ds p =>
          match ds.findIdx? (fun d => jsIncludes d.label (getStrategyLabel p.1)) with
          | none => ds
          | some idx =>
            let d := ds.getD idx default
            ds.set idx
              { d with data :=
                  jsSliceLast 100 (d.data ++ [st2.strategyRegrets.lookup (toString idx)]) })
        datasets0
      let expectedLength := labels.length
      let datasetsN := datasetsS.map
        (fun d =>
          let padVal := match d.data.getLast? with | none => some 0 | some v => v
          let padded := d.data ++ List.replicate (expectedLength - d.data.length) padVal
          { d with data := padded.take expectedLength })
      { st2 with labels := labels, datasets := datasetsN }

end RegretChart

/-- Bernoulli arms with expected values 1 and 0 for the C3 scenario. -/
def c3Configs : List MachineConfig :=
  [⟨0, "bernoulli", [1]⟩, ⟨1, "bernoulli", [0]⟩]

/-- Claim C3, on the code as written, evaluated at a failing input: after
one round in which the user pulls arm 1 and an active `ucb` strategy
recommends arm 1, the internal accumulators do hold the monotone cumulative
regrets (user 3/5, strategy 3/5), but the point emitted to the strategy's
chart series is `undefined` (`none`), because line 299 of part_007 looks up
the numeric dataset index instead of the strategy type in `strategyRegrets`;
moreover the chart holds only the user and strategy series — no
best-possible series emitting 0 exists. -/
theorem C3_regret_series_emission :
    (RegretChart.updateRegretChart (RegretChart.initializeRegretChart c3Configs)
        1 [("ucb", 1)] 1).strategyRegrets = [("ucb", 1)] ∧
    (RegretChart.updateRegretChart (RegretChart.initializeRegretChart c3Configs)
        1 [("ucb", 1)] 1).userCumulativeRegret = 1 ∧
    (RegretChart.updateRegretChart (RegretChart.initializeRegretChart c3Configs)
        1 [("ucb", 1)] 1).datasets =
      [⟨"Your Cumulative Regret", [some 0, some 1]⟩,
       ⟨"UCB Regret", [none, none]⟩] := by
  have hinc1 : jsIncludes ("Your Cumulative Regret") ("UCB") = false := by decide
  have hinc2 : jsIncludes ("UCB Regret") ("UCB") = true := by decide
  have hkey : (toString (1 : ℕ) == ("ucb" : String)) = false := by decide
  simp [RegretChart.updateRegretChart, RegretChart.initializeRegretChart,
    RegretChart.determineBestMachine, RegretChart.getExpectedValue,
    RegretChart.addStrategyRegretDataset, RegretChart.getStrategyLabel,
    RegretChart.jsSliceLast, RegretChart.assocBump, updateFirst, c3Configs,
    List.enum, List.enumFrom, List.lookup, hinc1, hinc2, hkey]
  norm_num

/-! ### Hard-mode permutation and the round pipeline (`slotMachine.js` in
part_005, `multiStrategy.js`) -/

/-- The externally visible calls made while one round is resolved, in
program order. `permutationNotice t` stands for an invocation of strategy
`t`'s `handlePermutation(newConfigs)` hook. -/
inductive RoundEvent where
  | permuted : RoundEvent
  | userPayoutSampled : RoundEvent
  | roundPayoutsGenerated : RoundEvent
  | strategiesSimulated : RoundEvent
  | chartUpdated : RoundEvent
  | regretChartUpdated : RoundEvent
  | permutationNotice : String → RoundEvent
deriving DecidableEq

/-- The call trace of `pullLever(machineId, distribution, parameters)`
(part_005, lines 642-713): an optional hard-mode permutation
(`permuteAndUpdateMachines`), the user's payout sample, the shared
round-payout vector, and — when a strategy manager is attached — the
strategy simulation and the two chart updates.  Neither `pullLever` nor
`permuteAndUpdateMachines` nor `forcePermutation` ever calls
`strategyManager.handlePermutation`, so no `permutationNotice` event can
occur in a round. -/
def pullLeverTrace (hardModePermutes : Bool) (hasManager : Bool) : List RoundEvent :=
  (if hardModePermutes then [RoundEvent.permuted] else []) ++
  [RoundEvent.userPayoutSampled, RoundEvent.roundPayoutsGenerated] ++
  (if hasManager then
    [RoundEvent.strategiesSimulated, RoundEvent.chartUpdated, RoundEvent.regretChartUpdated]
  else [])

/-- The notifications `MultiStrategyManager.handlePermutation(newConfigs)`
*would* dispatch if it were called: one `handlePermutation` invocation per
selected strategy that implements the hook (`multiStrategy.js` 270-280).
Each entry is `(type, isSelected, implementsHook)`. -/
def managerHandlePermutationTrace (strategies : List (String × Bool × Bool)) :
    List RoundEvent :=
  strategies.filterMap
    (fun p => if p.2.1 ∧ p.2.2 then some (RoundEvent.permutationNotice p.1) else none)

/-- Claim C9, on the code as written: after a hard-mode (or forced)
permutation no strategy's `handlePermutation` hook is invoked before the
round is resolved — the round trace of `pullLever` contains no
`permutationNotice` for any strategy, even though the manager's dispatcher,
had it been called, would notify every selected strategy implementing the
hook (for example EXP3-R but not UCB). -/
theorem C9_no_permutation_notification :
    (∀ (hardModePermutes hasManager : Bool) (t : String),
      RoundEvent.permutationNotice t ∉ pullLeverTrace hardModePermutes hasManager) ∧
    managerHandlePermutationTrace [("exp3r", true, true), ("ucb", true, false)] =
      [RoundEvent.permutationNotice ("exp3r")] := by
  constructor
  · intro hardModePermutes hasManager t
    cases hardModePermutes <;> cases hasManager <;> simp [pullLeverTrace]
  · rfl

/-- Witness for C9 at the concrete configuration: hard mode triggered, a
manager attached. -/
theorem C9_no_permutation_notification_witness :
    RoundEvent.permutationNotice ("exp3r") ∉ pullLeverTrace true true :=
  C9_no_permutation_notification.1 true true ("exp3r")
